import Mathlib

/-!
Shallow embedding of `src/utils/retry.py`: a retry decorator that wraps a
synchronous or asynchronous callable, re-invoking it up to `max_attempts`
times with a fixed `delay` between failed attempts, and re-raising the last
caught exception after exhaustion.

Modelling choices:
* A Python exception value is a `PyError` carrying its class name, its
  message, and a flag `isException` recording whether the value is an
  instance of `Exception` (the class the wrappers catch); values such as
  `KeyboardInterrupt` or `SystemExit` derive only from `BaseException` and
  have `isException = false`.
* One call to the wrapped function is determined by the behaviour of the
  underlying callable on each invocation, modelled as `op : Int → PyResult α`
  mapping the 1-based attempt number to a returned value or a raised error.
* `pyRange a b` models Python's `range(a, b)` with step 1; the loop
  `for attempt in range(1, max_attempts + 1)` walks `pyRange 1 (M + 1)`.
* The run of a wrapped call is summarised by a `RunTrace`: the outcome
  (returned value, propagated error, or failure of the
  `assert last_exception is not None` guard), the number of invocations of
  the underlying callable, the list of performed sleeps (each of length
  `delay`, from `time.sleep` resp. `asyncio.sleep`), and the counts of the
  two warning-log lines (the "Retrying in ..." line and the
  "No more retries." line).
-/

/-- A Python exception object: its class name, its message, and whether it is
an instance of `Exception` (as opposed to a bare `BaseException` such as
`KeyboardInterrupt` or `SystemExit`). -/
structure PyError where
  typeName : String
  message : String
  isException : Bool
deriving DecidableEq, Repr

/-- Result of one invocation of the underlying callable: a returned value or
a raised exception. -/
inductive PyResult (α : Type) where
  | ok (v : α)
  | raised (e : PyError)
deriving DecidableEq, Repr

/-- Outcome of one call to the wrapped function: a returned value, a
propagated exception, or a failure of the `assert last_exception is not None`
guard (reachable only when the attempt loop body never ran). -/
inductive Outcome (α : Type) where
  | ok (v : α)
  | raised (e : PyError)
  | assertFail
deriving DecidableEq, Repr

/-- Observable summary of one call to the wrapped function. -/
structure RunTrace (α : Type) where
  outcome : Outcome α
  calls : Nat
  waits : List ℚ
  retryLogs : Nat
  exhaustLogs : Nat
deriving DecidableEq, Repr

/-- Helper for `pyRange`, recursing on the number of remaining elements. -/
def pyRangeAux (a : Int) : Nat → List Int
  | 0 => []
  | n + 1 => a :: pyRangeAux (a + 1) n

/-- Python's `range(a, b)` with step 1: the integers `a, a+1, ..., b-1`,
empty when `b ≤ a`. -/
def pyRange (a b : Int) : List Int :=
  pyRangeAux a (b - a).toNat

theorem pyRange_nil {a b : Int} (h : b ≤ a) : pyRange a b = [] := by
  unfold pyRange
  have : (b - a).toNat = 0 := by omega
  rw [this]
  rfl

theorem pyRange_cons {a b : Int} (h : a < b) : pyRange a b = a :: pyRange (a + 1) b := by
  unfold pyRange
  have : (b - a).toNat = (b - (a + 1)).toNat + 1 := by omega
  rw [this]
  rfl

theorem pyRange_ne_nil {a b : Int} (h : a < b) : pyRange a b ≠ [] := by
  rw [pyRange_cons h]
  exact List.cons_ne_nil _ _

/-- One iteration sequence of the `for attempt in ...` loop body of
`sync_wrapper` (lines 92-119 of `retry.py`), carrying the mutable
`last_exception` through the remaining attempt numbers.  On each attempt the
callable is invoked; a returned value is returned from the wrapper at once;
a raised error is caught only when it is an instance of `Exception`, in which
case the wrapper logs a warning and, when `attempt < max_attempts`, sleeps
for `delay` before the next iteration; when the attempt list is exhausted the
wrapper asserts `last_exception is not None` and re-raises it. -/
def retryGo (op : Int → PyResult α) (maxAttempts : Int) (delay : ℚ) :
    List Int → Option PyError → RunTrace α
  | [], none => ⟨.assertFail, 0, [], 0, 0⟩
  | [], some e => ⟨.raised e, 0, [], 0, 0⟩
  | attempt :: rest, _ =>
    match op attempt with
    | .ok v => ⟨.ok v, 1, [], 0, 0⟩
    | .raised e =>
      if e.isException then
        if attempt < maxAttempts then
          let r := retryGo op maxAttempts delay rest (some e)
          ⟨r.outcome, r.calls + 1, delay :: r.waits, r.retryLogs + 1, r.exhaustLogs⟩
        else
          let r := retryGo op maxAttempts delay rest (some e)
          ⟨r.outcome, r.calls + 1, r.waits, r.retryLogs, r.exhaustLogs + 1⟩
      else
        ⟨.raised e, 1, [], 0, 0⟩

/-- The body of `sync_wrapper` (lines 89-121 of `retry.py`): run the attempt
loop over `range(1, max_attempts + 1)` with `last_exception` initially
`None`. -/
def sync_wrapper (maxAttempts : Int) (delay : ℚ) (op : Int → PyResult α) : RunTrace α :=
  retryGo op maxAttempts delay (pyRange 1 (maxAttempts + 1)) none

/-- One iteration sequence of the loop body of `async_wrapper` (lines 57-84
of `retry.py`); textually the same control flow as `retryGo`, with
`await asyncio.sleep(delay)` (a cooperative suspension of the same length)
in place of `time.sleep(delay)`. -/
def asyncRetryGo (op : Int → PyResult α) (maxAttempts : Int) (delay : ℚ) :
    List Int → Option PyError → RunTrace α
  | [], none => ⟨.assertFail, 0, [], 0, 0⟩
  | [], some e => ⟨.raised e, 0, [], 0, 0⟩
  | attempt :: rest, _ =>
    match op attempt with
    | .ok v => ⟨.ok v, 1, [], 0, 0⟩
    | .raised e =>
      if e.isException then
        if attempt < maxAttempts then
          let r := asyncRetryGo op maxAttempts delay rest (some e)
          ⟨r.outcome, r.calls + 1, delay :: r.waits, r.retryLogs + 1, r.exhaustLogs⟩
        else
          let r := asyncRetryGo op maxAttempts delay rest (some e)
          ⟨r.outcome, r.calls + 1, r.waits, r.retryLogs, r.exhaustLogs + 1⟩
      else
        ⟨.raised e, 1, [], 0, 0⟩

/-- The body of `async_wrapper` (lines 54-86 of `retry.py`). -/
def async_wrapper (maxAttempts : Int) (delay : ℚ) (op : Int → PyResult α) : RunTrace α :=
  asyncRetryGo op maxAttempts delay (pyRange 1 (maxAttempts + 1)) none

/-- Introspection metadata of a Python function: `__name__` and `__doc__`. -/
structure FuncMeta where
  funcName : String
  docstring : Option String
deriving DecidableEq, Repr

/-- The effect of `functools.wraps(func)` applied to a freshly defined
wrapper: the wrapped function's `__name__` and `__doc__` are copied onto the
wrapper, replacing the wrapper's own. -/
def functoolsWraps (wrapped wrapper : FuncMeta) : FuncMeta :=
  { funcName := wrapped.funcName, docstring := wrapped.docstring }

/-- Metadata of the value returned by the decorator for a synchronous
`func`: the local function `sync_wrapper` (whose own name is
"sync_wrapper" and which has no docstring) after `@functools.wraps(func)`. -/
def syncWrapperMeta (func : FuncMeta) : FuncMeta :=
  functoolsWraps func { funcName := "sync_wrapper", docstring := none }

/-- Metadata of the value returned by the decorator for an asynchronous
`func`. -/
def asyncWrapperMeta (func : FuncMeta) : FuncMeta :=
  functoolsWraps func { funcName := "async_wrapper", docstring := none }

/-- If every attempt from `j` through `M` raises an `Exception`-class error,
the loop performs all of them, sleeping after each non-final one, logging
`M - j` retry lines and one exhaustion line, and re-raises the error of
attempt `M`. -/
theorem retryGo_allFail (op : Int → PyResult α) (err : Int → PyError) (M : Int) (d : ℚ) :
    ∀ (n : Nat) (j : Int) (lex : Option PyError), (M - j).toNat = n → j ≤ M →
    (∀ i, j ≤ i → i ≤ M → op i = .raised (err i) ∧ (err i).isException = true) →
    retryGo op M d (pyRange j (M + 1)) lex =
      ⟨.raised (err M), n + 1, List.replicate n d, n, 1⟩ := by
  intro n
  induction n with
  | zero =>
    intro j lex h0 hjM hop
    have hj : j = M := by omega
    subst hj
    obtain ⟨h1, h2⟩ := hop j (le_refl j) (le_refl j)
    rw [pyRange_cons (by omega), pyRange_nil (by omega)]
    simp [retryGo, h1, h2]
  | succ n ih =>
    intro j lex h0 hjM hop
    have hjM' : j < M := by omega
    obtain ⟨h1, h2⟩ := hop j (le_refl j) (by omega)
    have ihr := ih (j + 1) (some (err j)) (by omega) (by omega)
      (fun i hi1 hi2 => hop i (by omega) hi2)
    rw [pyRange_cons (by omega)]
    simp [retryGo, h1, h2, hjM', ihr, List.replicate_succ]

/-- If attempts `j, ..., j + k - 1` raise `Exception`-class errors and
attempt `j + k ≤ M` returns a value, the loop performs `k + 1` invocations,
`k` sleeps and `k` retry-log lines, and returns the value. -/
theorem retryGo_failThenOk (op : Int → PyResult α) (err : Int → PyError) (M : Int) (d : ℚ)
    (v : α) :
    ∀ (k : Nat) (j : Int) (lex : Option PyError), j + k ≤ M →
    (∀ i, j ≤ i → i < j + k → op i = .raised (err i) ∧ (err i).isException = true) →
    op (j + k) = .ok v →
    retryGo op M d (pyRange j (M + 1)) lex =
      ⟨.ok v, k + 1, List.replicate k d, k, 0⟩ := by
  intro k
  induction k with
  | zero =>
    intro j lex hle hfail hok
    have hok' : op j = .ok v := by simpa using hok
    rw [pyRange_cons (by omega)]
    simp [retryGo, hok']
  | succ k ih =>
    intro j lex hle hfail hok
    have hjM : j < M := by omega
    obtain ⟨h1, h2⟩ := hfail j (le_refl j) (by omega)
    have hok' : op (j + 1 + (k : Int)) = .ok v := by
      have h : j + 1 + (k : Int) = j + ((k : Nat) + 1 : Nat) := by push_cast; ring
      rw [h]; exact hok
    have ihr := ih (j + 1) (some (err j)) (by omega)
      (fun i hi1 hi2 => hfail i (by omega) (by omega)) hok'
    rw [pyRange_cons (by omega)]
    simp [retryGo, h1, h2, hjM, ihr, List.replicate_succ]

/-- If attempts `j, ..., j + k - 1` raise `Exception`-class errors and
attempt `j + k ≤ M` raises an error that is not an instance of `Exception`,
that error propagates at once: `k + 1` invocations, `k` sleeps, `k`
retry-log lines, no exhaustion line. -/
theorem retryGo_failThenUncaught (op : Int → PyResult α) (err : Int → PyError) (M : Int)
    (d : ℚ) (e : PyError) (he : e.isException = false) :
    ∀ (k : Nat) (j : Int) (lex : Option PyError), j + k ≤ M →
    (∀ i, j ≤ i → i < j + k → op i = .raised (err i) ∧ (err i).isException = true) →
    op (j + k) = .raised e →
    retryGo op M d (pyRange j (M + 1)) lex =
      ⟨.raised e, k + 1, List.replicate k d, k, 0⟩ := by
  intro k
  induction k with
  | zero =>
    intro j lex hle hfail hop
    have hop' : op j = .raised e := by simpa using hop
    rw [pyRange_cons (by omega)]
    simp [retryGo, hop', he]
  | succ k ih =>
    intro j lex hle hfail hop
    have hjM : j < M := by omega
    obtain ⟨h1, h2⟩ := hfail j (le_refl j) (by omega)
    have hop' : op (j + 1 + (k : Int)) = .raised e := by
      have h : j + 1 + (k : Int) = j + ((k : Nat) + 1 : Nat) := by push_cast; ring
      rw [h]; exact hop
    have ihr := ih (j + 1) (some (err j)) (by omega)
      (fun i hi1 hi2 => hfail i (by omega) (by omega)) hop'
    rw [pyRange_cons (by omega)]
    simp [retryGo, h1, h2, hjM, ihr, List.replicate_succ]

/-- A run over a non-empty attempt list invokes the callable at least once. -/
theorem retryGo_calls_pos (op : Int → PyResult α) (M : Int) (d : ℚ) (a : Int) (l : List Int)
    (lex : Option PyError) : 1 ≤ (retryGo op M d (a :: l) lex).calls := by
  cases hop : op a with
  | ok v => simp [retryGo, hop]
  | raised e =>
    by_cases he : e.isException <;> by_cases ha : a < M <;>
      simp [retryGo, hop, he, ha]

/-- Every sleep performed by a run has the configured length `delay`. -/
theorem retryGo_waits_eq (op : Int → PyResult α) (M : Int) (d : ℚ) :
    ∀ (l : List Int) (lex : Option PyError) (w : ℚ),
      w ∈ (retryGo op M d l lex).waits → w = d := by
  intro l
  induction l with
  | nil =>
    intro lex w hw
    cases lex <;> simp [retryGo] at hw
  | cons a rest ih =>
    intro lex w hw
    cases hop : op a with
    | ok v => simp [retryGo, hop] at hw
    | raised e =>
      by_cases he : e.isException
      · by_cases ha : a < M
        · rw [retryGo] at hw
          simp [hop, he, ha] at hw
          rcases hw with hw | hw
          · exact hw
          · exact ih (some e) w hw
        · rw [retryGo] at hw
          simp [hop, he, ha] at hw
          exact ih (some e) w hw
      · simp [retryGo, hop, he] at hw

/-- A run whose attempt list is non-empty, or whose `last_exception` is
already set, never ends in the assertion-failure outcome. -/
theorem retryGo_ne_assertFail (op : Int → PyResult α) (M : Int) (d : ℚ) :
    ∀ (l : List Int) (lex : Option PyError), l ≠ [] ∨ lex ≠ none →
    (retryGo op M d l lex).outcome ≠ .assertFail := by
  intro l
  induction l with
  | nil =>
    intro lex h
    cases lex with
    | none => rcases h with h | h <;> simp at h
    | some e => simp [retryGo]
  | cons a rest ih =>
    intro lex _
    cases hop : op a with
    | ok v => simp [retryGo, hop]
    | raised e =>
      by_cases he : e.isException
      · by_cases ha : a < M
        · rw [retryGo]
          simp only [hop, he, ha, if_true]
          exact ih (some e) (Or.inr (by simp))
        · rw [retryGo]
          simp only [hop, he, ha, if_true, if_false]
          exact ih (some e) (Or.inr (by simp))
      · simp [retryGo, hop, he]

/-- The synchronous and asynchronous loop bodies compute the same trace. -/
theorem asyncRetryGo_eq (op : Int → PyResult α) (M : Int) (d : ℚ) :
    ∀ (l : List Int) (lex : Option PyError),
      asyncRetryGo op M d l lex = retryGo op M d l lex := by
  intro l
  induction l with
  | nil => intro lex; cases lex <;> rfl
  | cons a rest ih =>
    intro lex
    cases hop : op a with
    | ok v => simp [retryGo, asyncRetryGo, hop]
    | raised e =>
      by_cases he : e.isException
      · by_cases ha : a < M <;> simp [retryGo, asyncRetryGo, hop, he, ha, ih]
      · simp [retryGo, asyncRetryGo, hop, he]

/-- With `max_attempts = 1` no sleep is ever performed, whatever the
callable does on its single attempt. -/
theorem sync_wrapper_one_waits (op : Int → PyResult α) (d : ℚ) :
    (sync_wrapper 1 d op).waits = [] := by
  unfold sync_wrapper
  rw [pyRange_cons (by omega), pyRange_nil (by omega)]
  cases hop : op 1 with
  | ok v => simp [retryGo, hop]
  | raised e =>
    by_cases he : e.isException <;> simp [retryGo, hop, he]

/-- Unfolding step: a caught `Exception`-class error on a non-final attempt
adds one invocation, one sleep of length `delay` and one retry-log line in
front of the run over the remaining attempts. -/
theorem retryGo_cons_caught_retry (op : Int → PyResult α) (M : Int) (d : ℚ) (a : Int)
    (rest : List Int) (lex : Option PyError) (e : PyError) (hop : op a = .raised e)
    (he : e.isException = true) (ha : a < M) :
    retryGo op M d (a :: rest) lex =
      ⟨(retryGo op M d rest (some e)).outcome, (retryGo op M d rest (some e)).calls + 1,
        d :: (retryGo op M d rest (some e)).waits,
        (retryGo op M d rest (some e)).retryLogs + 1,
        (retryGo op M d rest (some e)).exhaustLogs⟩ := by
  simp [retryGo, hop, he, ha]

/-- If attempts `j, ..., j + k - 1` raise `Exception`-class errors and the
non-final attempt `j + k < M` raises an `Exception`-class error `e`, then `e`
is caught too: the run makes at least `k + 2` invocations, at least `k + 1`
sleeps and at least `k + 1` retry-log lines — whatever the class name and
message of `e` and whatever the callable does afterwards. -/
theorem retryGo_caughtStep (op : Int → PyResult α) (err : Int → PyError) (M : Int) (d : ℚ)
    (e : PyError) (he : e.isException = true) :
    ∀ (k : Nat) (j : Int) (lex : Option PyError), j + k < M →
    (∀ i, j ≤ i → i < j + k → op i = .raised (err i) ∧ (err i).isException = true) →
    op (j + k) = .raised e →
    k + 2 ≤ (retryGo op M d (pyRange j (M + 1)) lex).calls ∧
    k + 1 ≤ (retryGo op M d (pyRange j (M + 1)) lex).waits.length ∧
    k + 1 ≤ (retryGo op M d (pyRange j (M + 1)) lex).retryLogs := by
  intro k
  induction k with
  | zero =>
    intro j lex hlt hfail hop
    have hop' : op j = .raised e := by simpa using hop
    have hjM : j < M := by omega
    obtain ⟨b, rest2, hb⟩ : ∃ b rest2, pyRange (j + 1) (M + 1) = b :: rest2 := by
      cases hpr : pyRange (j + 1) (M + 1) with
      | nil => exact absurd hpr (pyRange_ne_nil (by omega))
      | cons b r2 => exact ⟨b, r2, rfl⟩
    have hcp : 1 ≤ (retryGo op M d (pyRange (j + 1) (M + 1)) (some e)).calls := by
      rw [hb]; exact retryGo_calls_pos op M d b rest2 (some e)
    rw [pyRange_cons (by omega), retryGo_cons_caught_retry op M d j _ lex e hop' he hjM]
    refine ⟨by simpa using hcp, by simp, by simp⟩
  | succ k ih =>
    intro j lex hlt hfail hop
    have hjM : j < M := by omega
    obtain ⟨h1, h2⟩ := hfail j (le_refl j) (by omega)
    have hop' : op (j + 1 + (k : Int)) = .raised e := by
      have h : j + 1 + (k : Int) = j + ((k : Nat) + 1 : Nat) := by push_cast; ring
      rw [h]; exact hop
    have ihr := ih (j + 1) (some (err j)) (by omega)
      (fun i hi1 hi2 => hfail i (by omega) (by omega)) hop'
    rw [pyRange_cons (by omega), retryGo_cons_caught_retry op M d j _ lex (err j) h1 h2 hjM]
    obtain ⟨ih1, ih2, ih3⟩ := ihr
    refine ⟨?_, ?_, ?_⟩
    · show k + 1 + 2 ≤ (retryGo op M d (pyRange (j + 1) (M + 1)) (some (err j))).calls + 1
      omega
    · show k + 1 + 1 ≤
        (d :: (retryGo op M d (pyRange (j + 1) (M + 1)) (some (err j))).waits).length
      simp only [List.length_cons]
      omega
    · show k + 1 + 1 ≤
        (retryGo op M d (pyRange (j + 1) (M + 1)) (some (err j))).retryLogs + 1
      omega

/-! Concrete callables used by the witness theorems. -/

/-- A concrete `Exception`-class error. -/
def errW : PyError := ⟨"ValueError", "boom", true⟩

/-- Constant error function assigning `errW` to every attempt. -/
def errFunW : Int → PyError := fun _ => errW

/-- A callable that raises `errW` on every invocation. -/
def opFailW : Int → PyResult String := fun _ => .raised errW

/-- A raised value deriving from `BaseException` but not from `Exception`. -/
def kbInterrupt : PyError := ⟨"KeyboardInterrupt", "", false⟩

/-- A callable that raises `kbInterrupt` on every invocation. -/
def opKbW : Int → PyResult String := fun _ => .raised kbInterrupt

/-- A callable failing on attempts 1 and 2 and returning on attempt 3. -/
def opFlakyW : Int → PyResult String :=
  fun i => if i < 3 then .raised errW else .ok "success"

/-- A callable raising `errW` on attempt 1 and `kbInterrupt` afterwards. -/
def opKbLaterW : Int → PyResult String :=
  fun i => if i < 2 then .raised errW else .raised kbInterrupt
/-- C1: for an operation that fails with an `Exception`-class error on every
invocation and any `max_attempts = M ≥ 1`, a single call to the wrapped
operation invokes the underlying operation exactly `M` times and then
propagates to the caller the error raised by the `M`-th invocation, in both
the synchronous and the asynchronous wrapper. -/
theorem C1_bounded_retries {α : Type} (M : Int) (d : ℚ) (op : Int → PyResult α)
    (err : Int → PyError) (hM : 1 ≤ M)
    (hop : ∀ i, 1 ≤ i → i ≤ M → op i = .raised (err i) ∧ (err i).isException = true) :
    (sync_wrapper M d op).calls = M.toNat ∧
      (sync_wrapper M d op).outcome = .raised (err M) ∧
      (async_wrapper M d op).calls = M.toNat ∧
      (async_wrapper M d op).outcome = .raised (err M) := by
  have hs : sync_wrapper M d op =
      ⟨.raised (err M), (M - 1).toNat + 1, List.replicate (M - 1).toNat d,
        (M - 1).toNat, 1⟩ :=
    retryGo_allFail op err M d (M - 1).toNat 1 none rfl hM hop
  have ha : async_wrapper M d op = sync_wrapper M d op :=
    asyncRetryGo_eq op M d (pyRange 1 (M + 1)) none
  rw [ha, hs]
  exact ⟨by show (M - 1).toNat + 1 = M.toNat; omega, rfl,
    by show (M - 1).toNat + 1 = M.toNat; omega, rfl⟩

/-- C1 witness: with `max_attempts = 3` and a callable that always raises a
`ValueError`, the wrapped call makes exactly 3 invocations. -/
theorem C1_bounded_retries_witness :
    (1 : Int) ≤ 3 ∧ (sync_wrapper 3 1 opFailW).calls = (3 : Int).toNat :=
  ⟨by norm_num,
    (C1_bounded_retries 3 1 opFailW errFunW (by norm_num)
      (fun i h1 h2 => ⟨rfl, rfl⟩)).1⟩

/-- C2 counterexample: with `max_attempts = 3`, a `KeyboardInterrupt` — a
failure the underlying operation can raise — thrown on attempt 1 (a
non-final attempt) is not caught: the operation is invoked only once, no
delay is performed, and the failure propagates, refuting "a failure of any
type whatsoever is caught". -/
theorem C2_any_type_counterexample :
    (sync_wrapper 3 1 opKbW).calls = 1 ∧ (sync_wrapper 3 1 opKbW).waits = [] ∧
      (sync_wrapper 3 1 opKbW).outcome = .raised kbInterrupt := by decide

/-- C2 (amended): any failure that is an instance of the `Exception` class —
regardless of its class name and message, with no finer per-type filtering —
raised on a non-final attempt is caught and followed by a delay of exactly
`delay` and a further invocation of the operation. -/
theorem C2_exception_class_retried {α : Type} (M : Int) (d : ℚ) (op : Int → PyResult α)
    (err : Int → PyError) (e : PyError) (k : Nat) (hlt : 1 + (k : Int) < M)
    (hfail : ∀ i, 1 ≤ i → i < 1 + (k : Int) →
      op i = .raised (err i) ∧ (err i).isException = true)
    (hraise : op (1 + (k : Int)) = .raised e) (he : e.isException = true) :
    k + 2 ≤ (sync_wrapper M d op).calls ∧
      k + 1 ≤ (sync_wrapper M d op).waits.length ∧
      k + 1 ≤ (sync_wrapper M d op).retryLogs ∧
      ∀ w ∈ (sync_wrapper M d op).waits, w = d := by
  have h := retryGo_caughtStep op err M d e he k 1 none (by omega) hfail hraise
  refine ⟨h.1, h.2.1, h.2.2, ?_⟩
  exact fun w hw => retryGo_waits_eq op M d (pyRange 1 (M + 1)) none w hw

/-- C2 witness: a `ValueError` raised on the first of 3 attempts is caught
and the operation is invoked again. -/
theorem C2_exception_class_retried_witness :
    1 + ((0 : Nat) : Int) < 3 ∧ 0 + 2 ≤ (sync_wrapper 3 1 opFailW).calls :=
  ⟨by norm_num,
    (C2_exception_class_retried 3 1 opFailW errFunW errW 0 (by norm_num)
      (fun i h1 h2 => by exfalso; push_cast at h2; omega) rfl rfl).1⟩

/-- C3: with `max_attempts = M ≥ 1`, an operation that fails with
`Exception`-class errors on its first `k` invocations (`k < M`) and returns
on invocation `k + 1` is invoked exactly `k + 1` times and its value is
returned; for `k = 0` it is invoked exactly once and no wait is performed. -/
theorem C3_eventual_success {α : Type} (M : Int) (d : ℚ) (op : Int → PyResult α)
    (err : Int → PyError) (v : α) (k : Nat) (hk : (k : Int) < M)
    (hfail : ∀ i, 1 ≤ i → i < 1 + (k : Int) →
      op i = .raised (err i) ∧ (err i).isException = true)
    (hok : op (1 + (k : Int)) = .ok v) :
    (sync_wrapper M d op).calls = k + 1 ∧ (sync_wrapper M d op).outcome = .ok v ∧
      (k = 0 → (sync_wrapper M d op).calls = 1 ∧ (sync_wrapper M d op).waits = []) := by
  have hs : sync_wrapper M d op = ⟨.ok v, k + 1, List.replicate k d, k, 0⟩ :=
    retryGo_failThenOk op err M d v k 1 none (by omega) hfail hok
  rw [hs]
  exact ⟨rfl, rfl, fun hk0 => by subst hk0; exact ⟨rfl, rfl⟩⟩

/-- C3 witness: failing twice and returning on the third of 3 attempts
yields the returned value with exactly 3 invocations. -/
theorem C3_eventual_success_witness :
    ((2 : Nat) : Int) < 3 ∧ (sync_wrapper 3 1 opFlakyW).calls = 2 + 1 :=
  ⟨by norm_num,
    (C3_eventual_success 3 1 opFlakyW errFunW "success" 2 (by norm_num)
      (fun i h1 h2 => by
        have h3 : i < 3 := by push_cast at h2; omega
        simp [opFlakyW, h3, errFunW, errW])
      (by norm_num [opFlakyW])).1⟩

/-- C4: for an always-failing (with `Exception`-class errors) operation and
`max_attempts = M ≥ 1`, the failure observed by the caller after exhaustion
is exactly the error object raised by the `M`-th attempt — same class name
and same message, not wrapped in or replaced by any other failure — in both
wrappers. -/
theorem C4_failure_identity {α : Type} (M : Int) (d : ℚ) (op : Int → PyResult α)
    (err : Int → PyError) (hM : 1 ≤ M)
    (hop : ∀ i, 1 ≤ i → i ≤ M → op i = .raised (err i) ∧ (err i).isException = true) :
    (sync_wrapper M d op).outcome = .raised (err M) ∧
      (async_wrapper M d op).outcome = .raised (err M) ∧
      ∀ e, (sync_wrapper M d op).outcome = .raised e →
        e.typeName = (err M).typeName ∧ e.message = (err M).message := by
  have hs : sync_wrapper M d op =
      ⟨.raised (err M), (M - 1).toNat + 1, List.replicate (M - 1).toNat d,
        (M - 1).toNat, 1⟩ :=
    retryGo_allFail op err M d (M - 1).toNat 1 none rfl hM hop
  have ha : async_wrapper M d op = sync_wrapper M d op :=
    asyncRetryGo_eq op M d (pyRange 1 (M + 1)) none
  rw [ha, hs]
  refine ⟨rfl, rfl, ?_⟩
  intro e hevent
  have : err M = e := by simpa using hevent
  rw [this]
  exact ⟨rfl, rfl⟩

/-- C4 witness: with 3 always-failing attempts, the caller observes the
error object of the 3rd attempt. -/
theorem C4_failure_identity_witness :
    (1 : Int) ≤ 3 ∧ (sync_wrapper 3 1 opFailW).outcome = .raised (errFunW 3) :=
  ⟨by norm_num,
    (C4_failure_identity 3 1 opFailW errFunW (by norm_num)
      (fun i h1 h2 => ⟨rfl, rfl⟩)).1⟩

/-- C5: for the same per-invocation behaviour and the same configuration,
the synchronous and asynchronous wrapped operations produce identical runs:
the same number of invocations, the same outcome (returned value or
propagated failure), and the same sleeps — the two wrapper bodies are
equivalent except for how the delay-wait is performed. -/
theorem C5_execution_model_symmetry {α : Type} (M : Int) (d : ℚ) (op : Int → PyResult α) :
    async_wrapper M d op = sync_wrapper M d op ∧
      (async_wrapper M d op).calls = (sync_wrapper M d op).calls ∧
      (async_wrapper M d op).outcome = (sync_wrapper M d op).outcome ∧
      (async_wrapper M d op).waits = (sync_wrapper M d op).waits := by
  have h : async_wrapper M d op = sync_wrapper M d op :=
    asyncRetryGo_eq op M d (pyRange 1 (M + 1)) none
  exact ⟨h, by rw [h], by rw [h], by rw [h]⟩

/-- C6: a delay of exactly `delay` is performed after each failed non-final
attempt and nowhere else: an always-failing run with `max_attempts = M ≥ 1`
performs exactly `M - 1` waits of length `delay` (total `(M - 1) * delay`),
a run succeeding after `k` failures performs exactly `k` waits, and with
`max_attempts = 1` no wait is ever performed, whatever the operation does. -/
theorem C6_delay_placement {α : Type} (M : Int) (d : ℚ) (op : Int → PyResult α)
    (err : Int → PyError) (hM : 1 ≤ M)
    (hop : ∀ i, 1 ≤ i → i ≤ M → op i = .raised (err i) ∧ (err i).isException = true) :
    (sync_wrapper M d op).waits = List.replicate (M.toNat - 1) d ∧
      (sync_wrapper M d op).waits.sum = ((M.toNat - 1 : Nat) : ℚ) * d ∧
      (∀ op2 : Int → PyResult α, ∀ (v : α) (k : Nat), (k : Int) < M →
        (∀ i, 1 ≤ i → i < 1 + (k : Int) →
          op2 i = .raised (err i) ∧ (err i).isException = true) →
        op2 (1 + (k : Int)) = .ok v →
        (sync_wrapper M d op2).waits = List.replicate k d) ∧
      (M = 1 → ∀ op3 : Int → PyResult α, (sync_wrapper M d op3).waits = []) := by
  have hs : sync_wrapper M d op =
      ⟨.raised (err M), (M - 1).toNat + 1, List.replicate (M - 1).toNat d,
        (M - 1).toNat, 1⟩ :=
    retryGo_allFail op err M d (M - 1).toNat 1 none rfl hM hop
  have hMn : (M - 1).toNat = M.toNat - 1 := by omega
  refine ⟨?_, ?_, ?_, ?_⟩
  · rw [hs]
    show List.replicate (M - 1).toNat d = List.replicate (M.toNat - 1) d
    rw [hMn]
  · rw [hs]
    show (List.replicate (M - 1).toNat d).sum = ((M.toNat - 1 : Nat) : ℚ) * d
    rw [List.sum_replicate, hMn, nsmul_eq_mul]
  · intro op2 v k hk hfail hok
    have h2 : sync_wrapper M d op2 = ⟨.ok v, k + 1, List.replicate k d, k, 0⟩ :=
      retryGo_failThenOk op2 err M d v k 1 none (by omega) hfail hok
    rw [h2]
  · intro hM1 op3
    subst hM1
    exact sync_wrapper_one_waits op3 d

/-- C6 witness: 3 always-failing attempts perform exactly 2 waits. -/
theorem C6_delay_placement_witness :
    (1 : Int) ≤ 3 ∧
      (sync_wrapper 3 1 opFailW).waits = List.replicate ((3 : Int).toNat - 1) 1 :=
  ⟨by norm_num,
    (C6_delay_placement 3 1 opFailW errFunW (by norm_num)
      (fun i h1 h2 => ⟨rfl, rfl⟩)).1⟩

/-- C7: whenever `max_attempts ≥ 1`, the attempt loop body runs at least
once, so on exhaustion the captured `last_exception` is necessarily present
and the `assert last_exception is not None` guard never fails, in both
wrappers. -/
theorem C7_assert_guard_unreachable {α : Type} (M : Int) (d : ℚ) (op : Int → PyResult α)
    (hM : 1 ≤ M) :
    (sync_wrapper M d op).outcome ≠ .assertFail ∧
      (async_wrapper M d op).outcome ≠ .assertFail := by
  have h1 : (sync_wrapper M d op).outcome ≠ .assertFail :=
    retryGo_ne_assertFail op M d (pyRange 1 (M + 1)) none
      (Or.inl (pyRange_ne_nil (by omega)))
  have ha : async_wrapper M d op = sync_wrapper M d op :=
    asyncRetryGo_eq op M d (pyRange 1 (M + 1)) none
  exact ⟨h1, by rw [ha]; exact h1⟩

/-- C7 witness: with 3 attempts the assertion guard is not reached. -/
theorem C7_assert_guard_unreachable_witness :
    (1 : Int) ≤ 3 ∧ (sync_wrapper 3 1 opFailW).outcome ≠ .assertFail :=
  ⟨by norm_num, (C7_assert_guard_unreachable 3 1 opFailW (by norm_num)).1⟩

/-- C8: the name and docstring observable on the wrapped function are
identical to those of the original function, for both wrappers. -/
theorem C8_metadata_preservation (func : FuncMeta) :
    (syncWrapperMeta func).funcName = func.funcName ∧
      (syncWrapperMeta func).docstring = func.docstring ∧
      (asyncWrapperMeta func).funcName = func.funcName ∧
      (asyncWrapperMeta func).docstring = func.docstring :=
  ⟨rfl, rfl, rfl, rfl⟩

/-- C9: a failure outside the `Exception` class (such as
`KeyboardInterrupt`) raised on attempt `k + 1 ≤ M`, after `k` caught
`Exception`-class failures, propagates immediately from that attempt: the
run makes exactly `k + 1` invocations, performs no further wait (only the
`k` earlier ones), emits no warning for the uncaught failure (only the `k`
earlier retry lines and no exhaustion line), in both wrappers — regardless
of how many attempts remain. -/
theorem C9_uncaught_base_exception {α : Type} (M : Int) (d : ℚ) (op : Int → PyResult α)
    (err : Int → PyError) (e : PyError) (k : Nat) (hle : 1 + (k : Int) ≤ M)
    (hfail : ∀ i, 1 ≤ i → i < 1 + (k : Int) →
      op i = .raised (err i) ∧ (err i).isException = true)
    (hraise : op (1 + (k : Int)) = .raised e) (he : e.isException = false) :
    sync_wrapper M d op = ⟨.raised e, k + 1, List.replicate k d, k, 0⟩ ∧
      async_wrapper M d op = ⟨.raised e, k + 1, List.replicate k d, k, 0⟩ := by
  have hs : sync_wrapper M d op = ⟨.raised e, k + 1, List.replicate k d, k, 0⟩ :=
    retryGo_failThenUncaught op err M d e he k 1 none (by omega) hfail hraise
  have ha : async_wrapper M d op = sync_wrapper M d op :=
    asyncRetryGo_eq op M d (pyRange 1 (M + 1)) none
  exact ⟨hs, by rw [ha]; exact hs⟩

/-- C9 witness: a `KeyboardInterrupt` on attempt 2 of 3 propagates at once:
2 invocations, 1 wait, 1 retry line, no exhaustion line. -/
theorem C9_uncaught_base_exception_witness :
    1 + ((1 : Nat) : Int) ≤ 3 ∧
      sync_wrapper 3 1 opKbLaterW =
        ⟨.raised kbInterrupt, 1 + 1, List.replicate 1 1, 1, 0⟩ :=
  ⟨by norm_num,
    (C9_uncaught_base_exception 3 1 opKbLaterW errFunW kbInterrupt 1 (by norm_num)
      (fun i h1 h2 => by
        have h3 : i < 2 := by push_cast at h2; omega
        simp [opKbLaterW, h3, errFunW, errW])
      (by norm_num [opKbLaterW]) rfl).1⟩

/-- C10: with `max_attempts ≤ 0` the attempt range is empty, so a call to
the wrapped operation never invokes the underlying operation and fails with
the wrapper's own assertion failure (`last_exception` absent), rather than
returning a value or propagating an operation failure, in both wrappers. -/
theorem C10_nonpositive_attempts {α : Type} (M : Int) (d : ℚ) (op : Int → PyResult α)
    (hM : M ≤ 0) :
    sync_wrapper M d op = ⟨.assertFail, 0, [], 0, 0⟩ ∧
      async_wrapper M d op = ⟨.assertFail, 0, [], 0, 0⟩ := by
  have h : pyRange 1 (M + 1) = [] := pyRange_nil (by omega)
  unfold sync_wrapper async_wrapper
  rw [h]
  exact ⟨rfl, rfl⟩

/-- C10 witness: with `max_attempts = 0` the operation is never invoked and
the assertion guard fails. -/
theorem C10_nonpositive_attempts_witness :
    (0 : Int) ≤ 0 ∧ sync_wrapper 0 1 opFailW = ⟨.assertFail, 0, [], 0, 0⟩ :=
  ⟨by norm_num, (C10_nonpositive_attempts 0 1 opFailW (by norm_num)).1⟩
